import Mathlib

/-!
Verification development for the hertz-contrib/websocket handshake layer.

The Go sources under verification are `server.go` (server-side
`Upgrader.Upgrade`, `checkSameOrigin`, `selectSubprotocol`,
`Subprotocols`), the client upgrader (`ClientUpgrader.PrepareRequest`
and `ClientUpgrader.UpgradeResponse`) and the appengine `maskBytes`.
Low-level helpers (`tokenListContainsValue`, `equalASCIIFold`,
`isValidChallengeKey`, `computeAcceptKey`, `parseExtensions`,
`parseDataHeader`) live in a utility file of the repository that is not
part of the provided sources; those are modelled from the specification
document, as marked in their doc comments.

Strings model ASCII header text: a character stands for one byte, so
`Char.toNat` is the byte value.  Machine integers are `Nat` with
explicit reduction modulo 2^32 where the SHA-1 code overflows.
-/

namespace HzWS

/-- ASCII case folding at byte level: fold an upper-case letter byte to
its lower-case byte, leave every other byte unchanged. -/
def foldNat (c : Char) : Nat :=
  if 65 ≤ c.toNat && c.toNat ≤ 90 then c.toNat + 32 else c.toNat

/-- Modelled from the spec: `equalASCIIFold` of the repository utility
file (not in the provided sources); ASCII case-insensitive string
equality, used for header tokens and origin host comparison. -/
def equalASCIIFold (s t : String) : Bool :=
  s.data.map foldNat == t.data.map foldNat

/-- ASCII whitespace as trimmed by the Go token/`TrimSpace` helpers. -/
def isSpaceChar (c : Char) : Bool :=
  (c == ' ') || (c == '\t') || (c == '\n') || (c == '\r')

/-- Split a character list at every occurrence of the separator, like
Go `strings.Split` on a one-character separator. -/
def splitOnChar (sep : Char) : List Char → List (List Char)
  | [] => [[]]
  | x :: xs =>
    let r := splitOnChar sep xs
    if x == sep then [] :: r else (x :: r.headD []) :: r.tail

/-- Trim ASCII whitespace from both ends, like Go `strings.TrimSpace`
restricted to ASCII input. -/
def trimChars (l : List Char) : List Char :=
  (((l.dropWhile isSpaceChar).reverse).dropWhile isSpaceChar).reverse

/-- True when the second list is an initial segment of the first
(Go `bytes.HasPrefix`). -/
def listStartsWith : List Char → List Char → Bool
  | _, [] => true
  | [], _ :: _ => false
  | x :: xs, y :: ys => x == y && listStartsWith xs ys

/-- String front-segment test on top of `listStartsWith`. -/
def startsWithStr (s p : String) : Bool :=
  listStartsWith s.data p.data

/-- Join character-list fragments with a separator character. -/
def joinWith (sep : Char) : List (List Char) → List Char
  | [] => []
  | [x] => x
  | x :: xs => x ++ sep :: joinWith sep xs

/-- Modelled from the spec: `tokenListContainsValue` of the repository
utility file (not in the provided sources); true when the
comma-separated token list `s` contains the token `value`
case-insensitively, as required for the `Connection`, `Upgrade` and
`Sec-WebSocket-Version` header checks. -/
def tokenListContainsValue (s value : String) : Bool :=
  (splitOnChar ',' s.data).any fun tok =>
    (trimChars tok).map foldNat == value.data.map foldNat

/-- Modelled from the spec: `tokenContainsValue` used by the client
upgrader (not in the provided sources); same comma-separated
case-insensitive token-list membership as the server helper. -/
def tokenContainsValue (s value : String) : Bool :=
  tokenListContainsValue s value

/-- ASCII bytes of a string (the development models header text as
ASCII, one byte per character). -/
def strBytes (s : String) : List Nat :=
  s.data.map Char.toNat

/-! ### Base64 (standard alphabet, as Go `encoding/base64.StdEncoding`) -/

/-- The standard base64 alphabet. -/
def b64Alphabet : List Char :=
  "ABCDEFGHIJKLMNOPQRSTUVWXYZabcdefghijklmnopqrstuvwxyz0123456789+/".data

/-- Character of a 6-bit value in the standard base64 alphabet. -/
def b64c (n : Nat) : Char := b64Alphabet.getD n 'A'

/-- Six-bit value of a base64 character, `none` for characters outside
the standard alphabet. -/
def b64v (c : Char) : Option Nat :=
  if 'A' ≤ c && c ≤ 'Z' then some (c.toNat - 65)
  else if 'a' ≤ c && c ≤ 'z' then some (c.toNat - 97 + 26)
  else if '0' ≤ c && c ≤ '9' then some (c.toNat - 48 + 52)
  else if c == '+' then some 62
  else if c == '/' then some 63
  else none

/-- Base64 encoding of a byte list (standard padding). -/
def b64EncodeChars : List Nat → List Char
  | a :: b :: c :: rest =>
    b64c (a >>> 2) :: b64c (((a % 4) <<< 4) ||| (b >>> 4)) ::
    b64c (((b % 16) <<< 2) ||| (c >>> 6)) :: b64c (c % 64) :: b64EncodeChars rest
  | [a, b] =>
    [b64c (a >>> 2), b64c (((a % 4) <<< 4) ||| (b >>> 4)), b64c ((b % 16) <<< 2), '=']
  | [a] =>
    [b64c (a >>> 2), b64c ((a % 4) <<< 4), '=', '=']
  | [] => []

/-- Base64 encoding, producing a string. -/
def base64Encode (bs : List Nat) : String :=
  String.mk (b64EncodeChars bs)

/-- Base64 decoding of a character list in groups of four; rejects
inputs whose length is not a multiple of four and misplaced padding,
like Go `base64.StdEncoding.DecodeString`. -/
def b64DecodeChars : List Char → Option (List Nat)
  | [] => some []
  | a :: b :: c :: d :: rest =>
    match b64v a, b64v b with
    | some va, some vb =>
      if c == '=' then
        if d == '=' && rest.isEmpty then some [(va <<< 2) ||| (vb >>> 4)] else none
      else
        match b64v c with
        | some vc =>
          if d == '=' then
            if rest.isEmpty then
              some [(va <<< 2) ||| (vb >>> 4), ((vb % 16) <<< 4) ||| (vc >>> 2)]
            else none
          else
            match b64v d with
            | some vd =>
              (b64DecodeChars rest).map fun t =>
                ((va <<< 2) ||| (vb >>> 4)) :: (((vb % 16) <<< 4) ||| (vc >>> 2)) ::
                (((vc % 4) <<< 6) ||| vd) :: t
            | none => none
        | none => none
    | _, _ => none
  | _ => none

/-- Base64 decoding of a string. -/
def base64Decode (s : String) : Option (List Nat) :=
  b64DecodeChars s.data

/-! ### SHA-1 (needed for the `Sec-WebSocket-Accept` computation) -/

/-- Reduce modulo 2^32 (32-bit machine arithmetic). -/
def w32 (x : Nat) : Nat := x % 4294967296

/-- Left rotation within a 32-bit word. -/
def rotl (n x : Nat) : Nat :=
  (((x % 4294967296) <<< n) % 4294967296) ||| ((x % 4294967296) >>> (32 - n))

/-- Big-endian 4-byte encoding of a 32-bit word. -/
def be32 (n : Nat) : List Nat :=
  [(n >>> 24) % 256, (n >>> 16) % 256, (n >>> 8) % 256, n % 256]

/-- Big-endian 8-byte encoding of a 64-bit length. -/
def be64 (n : Nat) : List Nat :=
  [(n >>> 56) % 256, (n >>> 48) % 256, (n >>> 40) % 256, (n >>> 32) % 256,
   (n >>> 24) % 256, (n >>> 16) % 256, (n >>> 8) % 256, n % 256]

/-- SHA-1 message padding: append `0x80`, zero bytes up to 56 mod 64,
then the bit length as a big-endian 64-bit value. -/
def padMessage (m : List Nat) : List Nat :=
  m ++ 128 :: List.replicate ((119 - m.length % 64) % 64) 0 ++ be64 (8 * m.length)

/-- Pack bytes into big-endian 32-bit words. -/
def toWords : List Nat → List Nat
  | a :: b :: c :: d :: rest => (a * 16777216 + b * 65536 + c * 256 + d) :: toWords rest
  | _ => []

/-- Extend the 16 words of one block to the 80 words of the SHA-1
message schedule. -/
def extendWords (ws : List Nat) : List Nat :=
  (List.range 64).foldl
    (fun acc i =>
      acc ++ [rotl 1 (acc.getD (i + 13) 0 ^^^ acc.getD (i + 8) 0 ^^^
                      acc.getD (i + 2) 0 ^^^ acc.getD i 0)])
    ws

/-- One SHA-1 compression round over a five-word state. -/
def sha1Step (ws : List Nat) (st : Nat × Nat × Nat × Nat × Nat) (i : Nat) :
    Nat × Nat × Nat × Nat × Nat :=
  let a := st.1
  let b := st.2.1
  let c := st.2.2.1
  let d := st.2.2.2.1
  let e := st.2.2.2.2
  let f :=
    if i < 20 then (b &&& c) ||| ((4294967295 - b) &&& d)
    else if i < 40 then b ^^^ c ^^^ d
    else if i < 60 then (b &&& c) ||| (b &&& d) ||| (c &&& d)
    else b ^^^ c ^^^ d
  let k :=
    if i < 20 then 1518500249
    else if i < 40 then 1859775393
    else if i < 60 then 2400959708
    else 3395469782
  (w32 (rotl 5 a + f + e + k + ws.getD i 0), a, rotl 30 b, c, d)

/-- SHA-1 compression of one 16-word block into the running state. -/
def sha1Block (h : Nat × Nat × Nat × Nat × Nat) (block : List Nat) :
    Nat × Nat × Nat × Nat × Nat :=
  let ws := extendWords block
  let r := (List.range 80).foldl (sha1Step ws) h
  (w32 (h.1 + r.1), w32 (h.2.1 + r.2.1), w32 (h.2.2.1 + r.2.2.1),
   w32 (h.2.2.2.1 + r.2.2.2.1), w32 (h.2.2.2.2 + r.2.2.2.2))

/-- Process `n` blocks of 16 words each. -/
def sha1Blocks : Nat → (Nat × Nat × Nat × Nat × Nat) → List Nat →
    Nat × Nat × Nat × Nat × Nat
  | 0, h, _ => h
  | n + 1, h, ws => sha1Blocks n (sha1Block h (ws.take 16)) (ws.drop 16)

/-- SHA-1 digest (20 bytes) of a byte list. -/
def sha1 (m : List Nat) : List Nat :=
  let ws := toWords (padMessage m)
  let h := sha1Blocks (ws.length / 16)
    (1732584193, 4023233417, 2562383102, 271733878, 3285377520) ws
  be32 h.1 ++ be32 h.2.1 ++ be32 h.2.2.1 ++ be32 h.2.2.2.1 ++ be32 h.2.2.2.2

/-- The fixed WebSocket accept-key GUID of RFC 6455. -/
def keyGUID : String := "258EAFA5-E914-47DA-95CA-C5AB0DC85B11"

/-- Modelled from the spec: `computeAcceptKey` of the repository
utility file (not in the provided sources);
`Sec-WebSocket-Accept = base64(SHA-1(key ++ GUID))`. -/
def computeAcceptKey (key : String) : String :=
  base64Encode (sha1 (strBytes key ++ strBytes keyGUID))

/-- Modelled from the spec: `isValidChallengeKey` of the repository
utility file (not in the provided sources); the `Sec-WebSocket-Key`
header must be present and decode to exactly 16 raw bytes. -/
def isValidChallengeKey (key : String) : Bool :=
  key != "" &&
    match base64Decode key with
    | some bytes => bytes.length == 16
    | none => false

/-! ### Frame masking (`maskBytes`, from the appengine mask source) -/

/-- Mask-key byte at a position, `key[pos & 3]` in the Go source. -/
def keyAt (key : Fin 4 → Nat) (pos : Nat) : Nat :=
  key ⟨pos % 4, Nat.mod_lt pos (by decide)⟩

/-- The function maskBytes from the source: XOR each payload byte with the mask
key byte at the running position and return the new payload together
with the final position reduced modulo 4. -/
def maskBytes (key : Fin 4 → Nat) (pos : Nat) : List Nat → List Nat × Nat
  | [] => ([], pos % 4)
  | x :: xs =>
    let rest := maskBytes key (pos + 1) xs
    ((x ^^^ keyAt key pos) :: rest.1, rest.2)

/-! ### Header views

Hertz parses the HTTP request and response headers for the engine; the
engine only reads them through `Get`-style case-insensitive lookups.
A request header view is an association list of (name, value) pairs,
a response header view an association list of (name, values) entries
mirroring `ResponseHeader.GetHeaders`. -/

/-- Case-insensitive header lookup, empty string when absent (the
behaviour of the hertz `RequestHeader.Get`). -/
def getH (hs : List (String × String)) (k : String) : String :=
  match hs.find? (fun p => equalASCIIFold p.1 k) with
  | some p => p.2
  | none => ""

/-- Case-insensitive lookup of the first value of a response header
entry, empty string when absent. -/
def respGet (hs : List (String × List String)) (k : String) : String :=
  match hs.find? (fun p => equalASCIIFold p.1 k) with
  | some p => p.2.headD ""
  | none => ""

/-- Replace a request header (the hertz `Header.Set` behaviour): drop
every entry with the same case-insensitive name and prepend the new
pair. -/
def setH (hs : List (String × String)) (k v : String) : List (String × String) :=
  (k, v) :: hs.filter (fun p => !(equalASCIIFold p.1 k))

/-- The parts of a hertz server request that `Upgrader.Upgrade` reads:
method, header view, `Host`, buffered body bytes, and whether the
context was already hijacked. -/
structure RequestM where
  method : String
  headers : List (String × String)
  host : String
  body : List Nat
  hijacked : Bool
deriving DecidableEq

/-- Replace one request header. -/
def setHeader (r : RequestM) (k v : String) : RequestM :=
  { r with headers := setH r.headers k v }

/-- The `Upgrader` configuration fields that decide the handshake
outcome (buffer sizing and the error renderer do not). -/
structure UpgraderM where
  subprotocols : Option (List String)
  checkOrigin : Option (RequestM → Bool)
  enableCompression : Bool

/-- An upgrader with every field left at its zero value. -/
def defaultUpgrader : UpgraderM :=
  { subprotocols := none, checkOrigin := none, enableCompression := false }

/-! ### Origin policy -/

/-- Host component of a parsed URL.  This models the Go
`net/url.Parse` call in `checkSameOrigin` for origin-shaped inputs:
`none` on a parse error (control characters, or a space inside the
host), the authority between `://` and the next delimiter otherwise,
and the empty host for scheme-less input. -/
def parseURLHost (s : String) : Option String :=
  if s.data.any (fun c => c.toNat < 32 || c.toNat == 127) then none
  else
    match splitAfter s.data with
    | some rest =>
      let host := rest.takeWhile fun c => c != '/' && c != '?' && c != '#'
      if host.any (fun c => c == ' ') then none else some (String.mk host)
    | none => some ""
where
  /-- Suffix after the first occurrence of `://`, if any. -/
  splitAfter : List Char → Option (List Char)
    | [] => none
    | x :: xs =>
      if listStartsWith (x :: xs) (':' :: '/' :: '/' :: []) then some (xs.drop 2)
      else splitAfter xs

/-- The function checkSameOrigin from the source: true when the `Origin` header is
absent or its parsed host equals the request host ASCII
case-insensitively; a parse failure rejects. -/
def checkSameOrigin (r : RequestM) : Bool :=
  let origin := getH r.headers "Origin"
  if origin == "" then true
  else
    match parseURLHost origin with
    | none => false
    | some h => equalASCIIFold h r.host

/-! ### Subprotocol selection -/

/-- The function Subprotocols from the source: the client protocol list, obtained
by trimming the `Sec-Websocket-Protocol` request header and splitting
it on commas (empty header gives the empty list). -/
def Subprotocols (r : RequestM) : List String :=
  let h := String.mk (trimChars (getH r.headers "Sec-Websocket-Protocol").data)
  if h == "" then []
  else (splitOnChar ',' h.data).map fun l => String.mk (trimChars l)

/-- The nested preference loop of `selectSubprotocol`: first entry of
the server list that occurs in the client list, empty string if none. -/
def firstMatch : List String → List String → String
  | [], _ => ""
  | s :: rest, client => if client.contains s then s else firstMatch rest client

/-- The function selectSubprotocol from the source: with a configured server list,
the first preference also requested by the client; otherwise the
pre-existing `Sec-Websocket-Protocol` response header when non-empty,
else the empty string. -/
def selectSubprotocol (u : UpgraderM) (r : RequestM)
    (respH : List (String × List String)) : String :=
  match u.subprotocols with
  | some serverList => firstMatch serverList (Subprotocols r)
  | none =>
    if respGet respH "Sec-Websocket-Protocol" != "" then
      respGet respH "Sec-Websocket-Protocol"
    else ""

/-! ### Compression negotiation -/

/-- One offered extension: its name and its parameter list. -/
structure Extension where
  name : String
  params : List (String × String)
deriving DecidableEq

/-- Modelled from the spec: `parseExtensions` of the repository utility
file (not in the provided sources); the `Sec-WebSocket-Extensions`
offer list, split on commas into extensions, each split on semicolons
into a name and `key=value` parameters, all tokens trimmed. -/
def parseExtensions (s : String) : List Extension :=
  (splitOnChar ',' s.data).map fun ex =>
    let parts := splitOnChar ';' ex
    { name := String.mk (trimChars (parts.headD []))
      params := parts.tail.map fun p =>
        match splitOnChar '=' p with
        | [] => ("", "")
        | k :: rest => (String.mk (trimChars k), String.mk (trimChars (joinWith '=' rest))) }

/-- The PMCE negotiation loop of `Upgrader.Upgrade`: compression is on
exactly when the upgrader enables it and some offered extension is
named `permessage-deflate` (its parameters are not examined). -/
def negotiateCompress (enable : Bool) (hdr : String) : Bool :=
  enable && (parseExtensions hdr).any fun e => e.name == "permessage-deflate"

/-! ### The 101 response bytes -/

/-- The response-splitting guard of `Upgrader.Upgrade`: every byte of
an application-supplied header value that is at most 31 is replaced by
a space. -/
def sanitize (bs : List Nat) : List Nat :=
  bs.map fun b => if b ≤ 31 then 32 else b

/-- Render the values of one application response header entry. -/
def renderVals (k : String) : List String → List Nat
  | [] => []
  | v :: vs => strBytes k ++ strBytes ": " ++ sanitize (strBytes v) ++ [13, 10] ++ renderVals k vs

/-- Render the application response headers as in the emission loop of
`Upgrader.Upgrade`: skip `Sec-Websocket-Protocol`, sanitize every
value. -/
def renderAppHeaders : List (String × List String) → List Nat
  | [] => []
  | (k, vs) :: rest =>
    if k == "Sec-Websocket-Protocol" then renderAppHeaders rest
    else renderVals k vs ++ renderAppHeaders rest

/-- The 101 response bytes assembled by `Upgrader.Upgrade`: status
line and fixed headers, the accept key, the negotiated subprotocol
line when non-empty, the fixed extensions line when compression was
negotiated, the sanitized application headers, and the final blank
line. -/
def buildResponse (accept sub : String) (compress : Bool)
    (respH : List (String × List String)) : List Nat :=
  strBytes "HTTP/1.1 101 Switching Protocols\r\nUpgrade: websocket\r\nConnection: Upgrade\r\nSec-WebSocket-Accept: " ++
  strBytes accept ++ [13, 10] ++
  (if sub == "" then [] else strBytes "Sec-WebSocket-Protocol: " ++ strBytes sub ++ [13, 10]) ++
  (if compress then
    strBytes "Sec-WebSocket-Extensions: permessage-deflate; server_no_context_takeover; client_no_context_takeover\r\n"
  else []) ++
  renderAppHeaders respH ++ [13, 10]

/-! ### The server upgrade -/

/-- The negotiated state of a `Conn` produced by the handshake. -/
structure ConnM where
  isServer : Bool
  subprotocol : String
  compress : Bool
deriving DecidableEq

/-- Outcome of `Upgrader.Upgrade`: a handshake validation failure with
its HTTP status and message, the early-data failure (the network
connection is closed, a plain error is returned), or success with the
emitted 101 response bytes and the connection state. -/
inductive UpgradeResult where
  | handshakeErr (status : Nat) (msg : String)
  | earlyDataErr
  | ok (response : List Nat) (conn : ConnM)
deriving DecidableEq

/-- Whether the upgrade path closed the underlying network connection
before returning. -/
def connClosedByUpgrade : UpgradeResult → Bool
  | .earlyDataErr => true
  | _ => false

/-- The validation failure carried by an upgrade outcome, if any. -/
def toCheckError : UpgradeResult → Option (Nat × String)
  | .handshakeErr s m => some (s, m)
  | _ => none

/-- Error messages of the validation chain (apostrophes and quotes of
the Go literals omitted). -/
def hijackMsg : String := "connection must not be hijacked"

/-- Message of the failed `Connection` header check. -/
def connMsg : String :=
  "websocket: the client is not using the websocket protocol: upgrade token not found in Connection header"

/-- Message of the failed `Upgrade` header check. -/
def upgMsg : String :=
  "websocket: the client is not using the websocket protocol: websocket token not found in Upgrade header"

/-- Message of the failed request-method check. -/
def methodMsg : String :=
  "websocket: the client is not using the websocket protocol: request method is not GET"

/-- Message of the failed `Sec-WebSocket-Version` check. -/
def versionMsg : String :=
  "websocket: unsupported version: 13 not found in Sec-Websocket-Version header"

/-- Message of the application-preset `Sec-WebSocket-Extensions`
check. -/
def extMsg : String :=
  "websocket: application specific Sec-WebSocket-Extensions headers are unsupported"

/-- Message of the failed origin check. -/
def originMsg : String :=
  "websocket: request origin not allowed by Upgrader.CheckOrigin"

/-- Message of the failed `Sec-WebSocket-Key` check. -/
def keyMsg : String :=
  "websocket: not a websocket handshake: Sec-WebSocket-Key header must be Base64 encoded value of 16-byte in length"

/-- The method Upgrade of Upgrader from the source, as the function from the parts
of the request context it reads to its outcome.  The checks appear in
the source order: hijacked, `Connection`, `Upgrade`, method,
`Sec-WebSocket-Version`, application-preset extensions, origin,
`Sec-WebSocket-Key`; then the body guard, then the 101 response and
connection construction.  I/O plumbing (buffer reuse, deadlines, the
handler call) is outside the model. -/
def Upgrade (u : UpgraderM) (r : RequestM)
    (respH : List (String × List String)) : UpgradeResult :=
  if r.hijacked then .handshakeErr 500 hijackMsg
  else if !(tokenListContainsValue (getH r.headers "Connection") "upgrade") then
    .handshakeErr 400 connMsg
  else if !(tokenListContainsValue (getH r.headers "Upgrade") "websocket") then
    .handshakeErr 400 upgMsg
  else if !(r.method == "GET") then .handshakeErr 405 methodMsg
  else if !(tokenListContainsValue (getH r.headers "Sec-Websocket-Version") "13") then
    .handshakeErr 400 versionMsg
  else if !(respGet respH "Sec-Websocket-Extensions" == "") then
    .handshakeErr 500 extMsg
  else if !((u.checkOrigin.getD checkSameOrigin) r) then .handshakeErr 403 originMsg
  else if !(isValidChallengeKey (getH r.headers "Sec-Websocket-Key")) then
    .handshakeErr 400 keyMsg
  else
    let sub := selectSubprotocol u r respH
    let compress := negotiateCompress u.enableCompression
      (getH r.headers "Sec-Websocket-Extensions")
    if !(r.body == []) then .earlyDataErr
    else
      .ok (buildResponse (computeAcceptKey (getH r.headers "Sec-Websocket-Key")) sub compress respH)
        { isServer := true, subprotocol := sub, compress := compress }

/-- The source-order validation list: each entry is the passing
condition together with the status and message of its failure. -/
def serverChecks (u : UpgraderM) (r : RequestM)
    (respH : List (String × List String)) : List (Bool × Nat × String) :=
  [(!r.hijacked, 500, hijackMsg),
   (tokenListContainsValue (getH r.headers "Connection") "upgrade", 400, connMsg),
   (tokenListContainsValue (getH r.headers "Upgrade") "websocket", 400, upgMsg),
   (r.method == "GET", 405, methodMsg),
   (tokenListContainsValue (getH r.headers "Sec-Websocket-Version") "13", 400, versionMsg),
   (respGet respH "Sec-Websocket-Extensions" == "", 500, extMsg),
   ((u.checkOrigin.getD checkSameOrigin) r, 403, originMsg),
   (isValidChallengeKey (getH r.headers "Sec-Websocket-Key"), 400, keyMsg)]

/-- First failing validation of a check list, with its status and
message. -/
def firstFailure (checks : List (Bool × Nat × String)) : Option (Nat × String) :=
  (checks.find? fun t => !t.1).map (·.2)

/-! ### The client upgrade -/

/-- The `ClientUpgrader` configuration that decides the response
handling (buffer sizing does not). -/
structure ClientUpgraderM where
  enableCompression : Bool
deriving DecidableEq

/-- The part of the prepared client request that `UpgradeResponse`
reads back. -/
structure ClientRequestM where
  headers : List (String × String)
deriving DecidableEq

/-- The parts of the received response that `UpgradeResponse` reads. -/
structure ClientResponseM where
  status : Nat
  headers : List (String × String)
deriving DecidableEq

/-- The negotiated state of a client connection. -/
structure ClientConnM where
  isServer : Bool
  compress : Bool
deriving DecidableEq

/-- Modelled from the spec: `parseDataHeader` of the repository utility
file (not in the provided sources); a comma-separated header value
split into its trimmed items. -/
def parseDataHeader (s : String) : List String :=
  (splitOnChar ',' s.data).map fun l => String.mk (trimChars l)

/-- The method UpgradeResponse of ClientUpgrader from the source: reject with the
generic bad-handshake error unless the status is 101, the `Upgrade`
and `Connection` headers carry their tokens and `Sec-Websocket-Accept`
matches the value recomputed from the request key; on success build a
client-role connection whose compression follows only the extensions
echoed by the server (hijacking of the transport is outside the
model). -/
def UpgradeResponse (p : ClientUpgraderM) (req : ClientRequestM)
    (resp : ClientResponseM) : Except Unit ClientConnM :=
  if resp.status != 101
      || !(tokenContainsValue (getH resp.headers "Upgrade") "websocket")
      || !(tokenContainsValue (getH resp.headers "Connection") "Upgrade")
      || (getH resp.headers "Sec-Websocket-Accept"
            != computeAcceptKey (getH req.headers "Sec-WebSocket-Key")) then
    .error ()
  else
    .ok { isServer := false
          compress := (parseDataHeader (getH resp.headers "Sec-WebSocket-Extensions")).any
            fun item => startsWithStr item "permessage-deflate" }

/-! ### Concrete inputs used by witnesses and counterexamples -/

/-- A well-formed upgrade request: GET, all handshake headers present,
the RFC 6455 sample key, no body. -/
def okReq : RequestM :=
  { method := "GET"
    headers := [("Connection", "Upgrade"), ("Upgrade", "websocket"),
                ("Sec-Websocket-Version", "13"),
                ("Sec-Websocket-Key", "dGhlIHNhbXBsZSBub25jZQ==")]
    host := "server.example.com"
    body := []
    hijacked := false }

/-- A request that is both non-GET and missing the `Connection`
upgrade token. -/
def c1Req : RequestM :=
  { method := "POST", headers := [("Connection", "close")],
    host := "example.com", body := [], hijacked := false }

/-- The well-formed request with a non-empty buffered body. -/
def c9Req : RequestM := { okReq with body := [104, 105] }

/-- A request with a non-empty body that also fails the `Connection`
header validation. -/
def c9BadReq : RequestM :=
  { method := "GET", headers := [("Connection", "close")],
    host := "example.com", body := [104], hijacked := false }

/-- A well-formed request whose `Origin` host differs from its
`Host`. -/
def c8Req : RequestM :=
  { method := "GET"
    headers := [("Connection", "Upgrade"), ("Upgrade", "websocket"),
                ("Sec-Websocket-Version", "13"),
                ("Origin", "http://evil.example"),
                ("Sec-Websocket-Key", "dGhlIHNhbXBsZSBub25jZQ==")]
    host := "good.example"
    body := []
    hijacked := false }

/-- A prepared client request carrying the sample challenge key. -/
def c5Req : ClientRequestM :=
  ⟨[("Sec-WebSocket-Key", "dGhlIHNhbXBsZSBub25jZQ==")]⟩

/-- A valid 101 server response to `c5Req`, without extensions. -/
def c5Resp : ClientResponseM :=
  ⟨101, [("Upgrade", "websocket"), ("Connection", "Upgrade"),
         ("Sec-Websocket-Accept", "s3pPLMBiTxaQ9kYGzzhZRbK+xOo=")]⟩

/-- A valid 101 server response to `c5Req` that also grants
permessage-deflate. -/
def c6Resp : ClientResponseM :=
  ⟨101, [("Upgrade", "websocket"), ("Connection", "Upgrade"),
         ("Sec-Websocket-Accept", "s3pPLMBiTxaQ9kYGzzhZRbK+xOo="),
         ("Sec-WebSocket-Extensions",
          "permessage-deflate; server_no_context_takeover; client_no_context_takeover")]⟩

/-- Application response headers containing a control character and a
`Sec-Websocket-Protocol` entry that the emission loop must drop. -/
def c10Hs : List (String × List String) :=
  [("X-Accel", ["a\nb"]), ("Sec-Websocket-Protocol", ["evil"])]

/-! ## Helper lemmas -/

/-- Unfolding lemma: masking and then masking again with the same key
and start position restores each byte, elementwise XOR cancellation. -/
theorem mask_mask_fst (key : Fin 4 → Nat) (pos : Nat) (b : List Nat) :
    (maskBytes key pos (maskBytes key pos b).1).1 = b := by
  induction b generalizing pos with
  | nil => rfl
  | cons x xs ih =>
    simp [maskBytes, ih, Nat.xor_assoc, Nat.xor_self, Nat.xor_zero]

/-- The returned position is the start position advanced by the length,
reduced modulo 4. -/
theorem mask_snd (key : Fin 4 → Nat) (pos : Nat) (b : List Nat) :
    (maskBytes key pos b).2 = (pos + b.length) % 4 := by
  induction b generalizing pos with
  | nil => simp [maskBytes]
  | cons x xs ih =>
    simp only [maskBytes, ih, List.length_cons]
    omega

/-- Byte `i` of the masked payload is the source byte XORed with the
key byte at `pos + i`. -/
theorem mask_getElem (key : Fin 4 → Nat) (pos : Nat) (b : List Nat) (i : Nat) :
    ((maskBytes key pos b).1)[i]? = (b[i]?).map fun x => x ^^^ keyAt key (pos + i) := by
  induction b generalizing pos i with
  | nil => simp [maskBytes]
  | cons x xs ih =>
    cases i with
    | zero => simp [maskBytes]
    | succ n =>
      simp only [maskBytes, List.getElem?_cons_succ, ih (pos + 1) n,
        Nat.add_succ, Nat.succ_add]

/-- The upgrade outcome carries exactly the first failing validation of
the source-order check list. -/
theorem upgrade_checks (u : UpgraderM) (r : RequestM)
    (respH : List (String × List String)) :
    toCheckError (Upgrade u r respH) = firstFailure (serverChecks u r respH) := by
  unfold Upgrade serverChecks firstFailure
  cases h1 : r.hijacked <;>
    simp only [h1, List.find?, Bool.not_false, Bool.not_true, reduceIte] <;> try rfl
  cases h2 : tokenListContainsValue (getH r.headers "Connection") "upgrade" <;>
    simp only [h2, Bool.not_false, Bool.not_true, reduceIte] <;> try rfl
  cases h3 : tokenListContainsValue (getH r.headers "Upgrade") "websocket" <;>
    simp only [h3, Bool.not_false, Bool.not_true, reduceIte] <;> try rfl
  cases h4 : r.method == "GET" <;>
    simp only [h4, Bool.not_false, Bool.not_true, reduceIte] <;> try rfl
  cases h5 : tokenListContainsValue (getH r.headers "Sec-Websocket-Version") "13" <;>
    simp only [h5, Bool.not_false, Bool.not_true, reduceIte] <;> try rfl
  cases h6 : respGet respH "Sec-Websocket-Extensions" == "" <;>
    simp only [h6, Bool.not_false, Bool.not_true, reduceIte] <;> try rfl
  cases h7 : (u.checkOrigin.getD checkSameOrigin) r <;>
    simp only [h7, Bool.not_false, Bool.not_true, reduceIte] <;> try rfl
  cases h8 : isValidChallengeKey (getH r.headers "Sec-Websocket-Key") <;>
    simp only [h8, Bool.not_false, Bool.not_true, reduceIte] <;> try rfl
  cases h9 : r.body == [] <;>
    simp only [h9, Bool.not_false, Bool.not_true, reduceIte] <;> rfl

/-- A check list has no failure exactly when every entry passes. -/
theorem firstFailure_none_iff (checks : List (Bool × Nat × String)) :
    firstFailure checks = none ↔ ∀ t ∈ checks, t.1 = true := by
  simp [firstFailure, List.find?_eq_none]

/-- The nested preference loop is the first server entry found in the
client list. -/
theorem firstMatch_eq_find (l client : List String) :
    firstMatch l client = ((l.find? fun s => client.contains s).getD "") := by
  induction l with
  | nil => rfl
  | cons s rest ih =>
    cases h : client.contains s <;> simp only [firstMatch, List.find?, h, ih] <;> rfl

/-! ## Claim theorems -/

/-- Claim C4: masking is an involution — for every 4-byte mask key,
starting position and byte sequence, applying `maskBytes` twice with
the same key and starting position restores the original bytes (and
both passes return the same final position, the start advanced by the
length modulo 4); with starting position 0, payload byte `i` is XORed
with `key[i mod 4]`. -/
theorem c4_mask_involution :
    ∀ (key : Fin 4 → Nat) (pos : Nat) (b : List Nat),
      (maskBytes key pos (maskBytes key pos b).1).1 = b ∧
      (maskBytes key pos b).2 = (pos + b.length) % 4 ∧
      ∀ i, ((maskBytes key 0 b).1)[i]? = (b[i]?).map fun x => x ^^^ keyAt key i := by
  intro key pos b
  refine ⟨mask_mask_fst key pos b, mask_snd key pos b, fun i => ?_⟩
  simpa using mask_getElem key 0 b i

/-- Claim C3: the `Sec-WebSocket-Accept` value is
`base64(SHA-1(key ++ "258EAFA5-E914-47DA-95CA-C5AB0DC85B11"))`; on the
RFC 6455 sample key it is exactly `s3pPLMBiTxaQ9kYGzzhZRbK+xOo=`, and
the 101 response emitted by the server carries `computeAcceptKey` of
the request key in its `Sec-WebSocket-Accept` header position. -/
theorem c3_accept_key :
    computeAcceptKey "dGhlIHNhbXBsZSBub25jZQ==" = "s3pPLMBiTxaQ9kYGzzhZRbK+xOo=" ∧
    ∀ (key sub : String) (compress : Bool) (respH : List (String × List String)),
      ∃ rest,
        buildResponse (computeAcceptKey key) sub compress respH =
          strBytes "HTTP/1.1 101 Switching Protocols\r\nUpgrade: websocket\r\nConnection: Upgrade\r\nSec-WebSocket-Accept: " ++
          (strBytes (computeAcceptKey key) ++ ([13, 10] ++ rest)) := by
  constructor
  · set_option maxRecDepth 4000 in decide
  · intro key sub compress respH
    exact ⟨_, rfl⟩

/-- Claim C1, counterexample: a request that is simultaneously non-GET
and missing the `Connection` upgrade token is rejected for the
`Connection` header with status 400 — not, as the claimed validation
order (method first) would demand, for the method with status 405. -/
theorem c1_counterexample :
    Upgrade defaultUpgrader c1Req [] = .handshakeErr 400 connMsg ∧
    c1Req.method ≠ "GET" ∧
    Upgrade defaultUpgrader c1Req [] ≠ .handshakeErr 405 methodMsg :=
  ⟨by decide, by decide, by decide⟩

/-- Claim C1 (amended): the server handshake validations run in the
source order — not already hijacked (500), `Connection` contains the
`upgrade` token (400), `Upgrade` contains the `websocket` token (400),
the method is GET (405), `Sec-WebSocket-Version` contains `13` (400),
no application-preset `Sec-WebSocket-Extensions` response header
(500), the origin policy approves (403), `Sec-WebSocket-Key` decodes
to 16 bytes (400) — and the first validation that fails determines the
returned HandshakeError and its status, no later check running. -/
theorem c1_validation_order (u : UpgraderM) (r : RequestM)
    (respH : List (String × List String)) :
    toCheckError (Upgrade u r respH) = firstFailure (serverChecks u r respH) :=
  upgrade_checks u r respH

/-- Claim C9, counterexample: a request with a non-empty body that
fails an earlier header validation returns that HandshakeError without
closing the underlying network connection, so a non-empty body alone
does not imply the connection is closed. -/
theorem c9_counterexample :
    c9BadReq.body ≠ [] ∧
    Upgrade defaultUpgrader c9BadReq [] = .handshakeErr 400 connMsg ∧
    connClosedByUpgrade (Upgrade defaultUpgrader c9BadReq []) = false := by
  refine ⟨by decide, by decide, by decide⟩

/-- Claim C9 (amended): for every request that passes all handshake
validations and whose buffered body is non-empty, `Upgrade` closes the
network connection and returns the early-data error, emitting no 101
response and constructing no connection. -/
theorem c9_early_data (u : UpgraderM) (r : RequestM)
    (respH : List (String × List String))
    (hpass : firstFailure (serverChecks u r respH) = none)
    (hbody : r.body ≠ []) :
    Upgrade u r respH = .earlyDataErr ∧
    connClosedByUpgrade (Upgrade u r respH) = true := by
  have hall := (firstFailure_none_iff _).mp hpass
  simp only [serverChecks, List.forall_mem_cons, List.forall_mem_nil] at hall
  obtain ⟨h1, h2, h3, h4, h5, h6, h7, h8, -⟩ := hall
  have hb : (r.body == []) = false := beq_eq_false_iff_ne.mpr hbody
  rw [Bool.not_eq_true'] at h1
  constructor <;>
    simp only [Upgrade, h1, h2, h3, h4, h5, h6, h7, h8, hb, Bool.not_true, Bool.not_false,
      reduceIte, connClosedByUpgrade] <;> rfl

/-- Claim C9, witness: the well-formed request with body bytes
`[104, 105]` passes every validation and is rejected as early data
with the connection closed. -/
theorem c9_witness :
    firstFailure (serverChecks defaultUpgrader c9Req []) = none ∧
    c9Req.body ≠ [] ∧
    (Upgrade defaultUpgrader c9Req [] = .earlyDataErr ∧
     connClosedByUpgrade (Upgrade defaultUpgrader c9Req []) = true) :=
  ⟨by decide, by decide, c9_early_data defaultUpgrader c9Req [] (by decide) (by decide)⟩

/-- Claim C7: the negotiated subprotocol is the first entry of the
configured server preference list that the client also requested in
`Sec-Websocket-Protocol` (empty when no match); without a configured
list it is the pre-existing response header value, hence the empty
string when that header is also empty. -/
theorem c7_subprotocol (u : UpgraderM) (r : RequestM)
    (respH : List (String × List String)) :
    selectSubprotocol u r respH =
      match u.subprotocols with
      | some serverList =>
        ((serverList.find? fun s => (Subprotocols r).contains s).getD "")
      | none => respGet respH "Sec-Websocket-Protocol" := by
  cases hs : u.subprotocols with
  | some serverList => simp [selectSubprotocol, hs, firstMatch_eq_find]
  | none =>
    simp only [selectSubprotocol, hs]
    cases h : respGet respH "Sec-Websocket-Protocol" != "" <;>
      simp_all [bne_eq_false_iff_eq]

/-- Claim C8: with no configured origin check, the default policy
accepts exactly when the `Origin` header is absent or the host of the
parsed origin URL equals the request host ASCII case-insensitively;
and a request that passes the five earlier validations but fails the
policy is rejected with a 403 HandshakeError. -/
theorem c8_origin_policy (u : UpgraderM) (r : RequestM)
    (respH : List (String × List String)) (hco : u.checkOrigin = none) :
    (checkSameOrigin r = true ↔
      (getH r.headers "Origin" = "" ∨
        ∃ hp, parseURLHost (getH r.headers "Origin") = some hp ∧
          equalASCIIFold hp r.host = true)) ∧
    (((serverChecks u r respH).take 6).all (fun t => t.1) = true →
      checkSameOrigin r = false →
      Upgrade u r respH = .handshakeErr 403 originMsg) := by
  constructor
  · unfold checkSameOrigin
    cases ho : getH r.headers "Origin" == ""
    · simp only [ho, Bool.false_eq_true, reduceIte]
      rw [beq_eq_false_iff_ne] at ho
      cases hp : parseURLHost (getH r.headers "Origin") <;> simp [hp, ho]
    · simp only [ho, reduceIte]
      rw [beq_iff_eq] at ho
      simp [ho]
  · intro hall hfail
    simp only [serverChecks, List.take, List.all_cons, List.all_nil,
      Bool.and_eq_true] at hall
    obtain ⟨h1, h2, h3, h4, h5, h6, -⟩ := hall
    rw [Bool.not_eq_true'] at h1
    simp only [Upgrade, h1, h2, h3, h4, h5, h6, hco, Option.getD, hfail,
      Bool.not_true, Bool.not_false, reduceIte]
    rfl

/-- Claim C8, witness: on a well-formed request whose `Origin` host
differs from its `Host`, the default policy rejects and the upgrade
fails with status 403. -/
theorem c8_witness :
    defaultUpgrader.checkOrigin = none ∧
    ((serverChecks defaultUpgrader c8Req []).take 6).all (fun t => t.1) = true ∧
    checkSameOrigin c8Req = false ∧
    Upgrade defaultUpgrader c8Req [] = .handshakeErr 403 originMsg :=
  ⟨rfl, by decide, by decide,
    (c8_origin_policy defaultUpgrader c8Req [] rfl).2 (by decide) (by decide)⟩

/-- Claim C5: the client handshake validation returns the generic
bad-handshake error exactly when the status is not 101, the `Upgrade`
header lacks the `websocket` token, the `Connection` header lacks the
`Upgrade` token, or `Sec-Websocket-Accept` differs from the value
computed from the request key; on success it returns a client-role
connection. -/
theorem c5_client_validation (p : ClientUpgraderM) (req : ClientRequestM)
    (resp : ClientResponseM) :
    (UpgradeResponse p req resp = .error () ↔
      (resp.status ≠ 101 ∨
        tokenContainsValue (getH resp.headers "Upgrade") "websocket" = false ∨
        tokenContainsValue (getH resp.headers "Connection") "Upgrade" = false ∨
        getH resp.headers "Sec-Websocket-Accept" ≠
          computeAcceptKey (getH req.headers "Sec-WebSocket-Key"))) ∧
    ∀ c, UpgradeResponse p req resp = .ok c → c.isServer = false := by
  unfold UpgradeResponse
  cases hcond : (resp.status != 101
      || !(tokenContainsValue (getH resp.headers "Upgrade") "websocket")
      || !(tokenContainsValue (getH resp.headers "Connection") "Upgrade")
      || (getH resp.headers "Sec-Websocket-Accept"
            != computeAcceptKey (getH req.headers "Sec-WebSocket-Key")))
  · simp only [hcond, Bool.false_eq_true, reduceIte]
    simp only [Bool.or_eq_false_iff, bne_eq_false_iff_eq, Bool.not_eq_false'] at hcond
    obtain ⟨⟨⟨hs, hu⟩, hc⟩, ha⟩ := hcond
    constructor
    · constructor
      · intro h
        exact absurd h (by intro he; cases he)
      · intro h
        rcases h with h | h | h | h
        · exact absurd hs h
        · rw [hu] at h
          cases h
        · rw [hc] at h
          cases h
        · exact absurd ha h
    · intro c hc2
      have := Except.ok.inj hc2
      rw [this.symm]
  · simp only [hcond, reduceIte]
    simp only [Bool.or_eq_true, bne_iff_ne, Bool.not_eq_true'] at hcond
    refine ⟨⟨fun _ => by tauto, fun _ => by trivial⟩, fun c hc2 => by cases hc2⟩

/-- Claim C5, witness: a valid 101 response to the sample request is
accepted and yields a client-role (non-server) connection. -/
theorem c5_witness :
    UpgradeResponse ⟨false⟩ c5Req c5Resp = .ok ⟨false, false⟩ ∧
    ClientConnM.isServer ⟨false, false⟩ = false :=
  ⟨by set_option maxRecDepth 4000 in rfl,
   (c5_client_validation ⟨false⟩ c5Req c5Resp).2 ⟨false, false⟩
     (by set_option maxRecDepth 4000 in rfl)⟩

/-- Claim C6: the client connection enables compression exactly when
the `Sec-WebSocket-Extensions` header of the server response contains a
permessage-deflate item, and the outcome is independent of the
own `EnableCompression` flag of the client. -/
theorem c6_client_compression (b bAlt : Bool) (req : ClientRequestM)
    (resp : ClientResponseM) :
    UpgradeResponse ⟨b⟩ req resp = UpgradeResponse ⟨bAlt⟩ req resp ∧
    ∀ c, UpgradeResponse ⟨b⟩ req resp = .ok c →
      (c.compress = true ↔
        ∃ item ∈ parseDataHeader (getH resp.headers "Sec-WebSocket-Extensions"),
          startsWithStr item "permessage-deflate" = true) := by
  refine ⟨rfl, fun c hc => ?_⟩
  unfold UpgradeResponse at hc
  cases hcond : (resp.status != 101
      || !(tokenContainsValue (getH resp.headers "Upgrade") "websocket")
      || !(tokenContainsValue (getH resp.headers "Connection") "Upgrade")
      || (getH resp.headers "Sec-Websocket-Accept"
            != computeAcceptKey (getH req.headers "Sec-WebSocket-Key")))
  · rw [hcond] at hc
    simp only [Bool.false_eq_true, reduceIte] at hc
    have := Except.ok.inj hc
    rw [this.symm]
    simp [List.any_eq_true]
  · rw [hcond] at hc
    simp only [reduceIte] at hc
    cases hc

/-- Claim C6, witness: even with the client flag off, a response
granting permessage-deflate yields a compressed connection. -/
theorem c6_witness :
    UpgradeResponse ⟨false⟩ c5Req c6Resp = .ok ⟨false, true⟩ ∧
    ((⟨false, true⟩ : ClientConnM).compress = true ↔
      ∃ item ∈ parseDataHeader (getH c6Resp.headers "Sec-WebSocket-Extensions"),
        startsWithStr item "permessage-deflate" = true) :=
  ⟨by set_option maxRecDepth 4000 in rfl,
   (c6_client_compression false true c5Req c6Resp).2 ⟨false, true⟩
     (by set_option maxRecDepth 4000 in rfl)⟩

/-- Searching a filtered list finds the same entry when the filter
keeps everything the search predicate accepts. -/
theorem find_filter_keep {α : Type} (q f : α → Bool) (l : List α)
    (h : ∀ a, q a = true → f a = true) :
    (l.filter f).find? q = l.find? q := by
  induction l with
  | nil => rfl
  | cons x xs ih =>
    cases hf : f x
    · have hq : q x = false := by
        cases hq : q x
        · rfl
        · rw [h x hq] at hf
          cases hf
      rw [List.filter_cons, if_neg (by simp [hf]), ih,
        List.find?_cons_of_neg _ (by simp [hq])]
    · rw [List.filter_cons, if_pos (by simp [hf])]
      cases hq : q x
      · rw [List.find?_cons_of_neg _ (by simp [hq]),
          List.find?_cons_of_neg _ (by simp [hq]), ih]
      · rw [List.find?_cons_of_pos _ (by simp [hq]),
          List.find?_cons_of_pos _ (by simp [hq])]

/-- ASCII-fold equality transfers membership between fold classes. -/
theorem foldEq_trans_ne (a b c : String)
    (hab : equalASCIIFold a b = true) (hbc : equalASCIIFold b c = false) :
    equalASCIIFold a c = false := by
  simp only [equalASCIIFold, beq_iff_eq] at hab
  simp only [equalASCIIFold, beq_eq_false_iff_ne] at hbc ⊢
  rw [hab]
  exact hbc

/-- Setting one header leaves the lookup of any header with a
different (case-insensitive) name unchanged. -/
theorem getH_setH_ne (hs : List (String × String)) (k v target : String)
    (hne : equalASCIIFold k target = false) :
    getH (setH hs k v) target = getH hs target := by
  unfold getH setH
  rw [List.find?_cons_of_neg _ (by simp [hne])]
  rw [find_filter_keep]
  intro a ha
  simp only [Bool.not_eq_true']
  exact foldEq_trans_ne a.1 target k (by simpa using ha)
    (by
      simp only [equalASCIIFold, beq_eq_false_iff_ne] at hne ⊢
      exact fun he => hne he.symm)

/-- Replacing the `Sec-Websocket-Extensions` offer of the request changes no
entry of the validation list when the default origin policy is in
force. -/
theorem serverChecks_setExt (u : UpgraderM) (r : RequestM)
    (respH : List (String × List String)) (v : String)
    (hco : u.checkOrigin = none) :
    serverChecks u (setHeader r "Sec-Websocket-Extensions" v) respH =
      serverChecks u r respH := by
  have e1 := getH_setH_ne r.headers "Sec-Websocket-Extensions" v "Connection" (by decide)
  have e2 := getH_setH_ne r.headers "Sec-Websocket-Extensions" v "Upgrade" (by decide)
  have e3 := getH_setH_ne r.headers "Sec-Websocket-Extensions" v "Sec-Websocket-Version"
    (by decide)
  have e4 := getH_setH_ne r.headers "Sec-Websocket-Extensions" v "Origin" (by decide)
  have e5 := getH_setH_ne r.headers "Sec-Websocket-Extensions" v "Sec-Websocket-Key"
    (by decide)
  simp only [serverChecks, setHeader, hco, Option.getD, checkSameOrigin, e1, e2, e3, e4, e5]

/-- Claim C2, counterexample: the plain offer `permessage-deflate`
carries no no-context-takeover parameter — under RFC 7692 defaults it
proposes to use context takeover — yet with compression enabled the
engine negotiates compression for it instead of treating it as a
non-match. -/
theorem c2_counterexample :
    negotiateCompress true "permessage-deflate" = true ∧
    parseExtensions "permessage-deflate" =
      [{ name := "permessage-deflate", params := [] }] := by
  refine ⟨by decide, by decide⟩

/-- Claim C2 (amended): compression is negotiated exactly when the
server enables it and the client `Sec-WebSocket-Extensions` header
offers an extension named `permessage-deflate`; offered parameters are
not examined — no offer is a non-match because of its parameters — and
the offer header never changes which validation failure, if any, the
handshake returns. -/
theorem c2_compression_negotiation (enable : Bool) (hdr : String)
    (u : UpgraderM) (r : RequestM) (respH : List (String × List String))
    (v : String) (hco : u.checkOrigin = none) :
    (negotiateCompress enable hdr = true ↔
      (enable = true ∧ ∃ e ∈ parseExtensions hdr, e.name = "permessage-deflate")) ∧
    toCheckError (Upgrade u (setHeader r "Sec-Websocket-Extensions" v) respH) =
      toCheckError (Upgrade u r respH) := by
  constructor
  · simp [negotiateCompress, List.any_eq_true]
  · rw [upgrade_checks, upgrade_checks, serverChecks_setExt u r respH v hco]

/-- Claim C2, witness: instantiating the amended statement at the
plain offer and a concrete request. -/
theorem c2_witness :
    (negotiateCompress true "permessage-deflate" = true ↔
      (true = true ∧
        ∃ e ∈ parseExtensions "permessage-deflate", e.name = "permessage-deflate")) ∧
    toCheckError
        (Upgrade defaultUpgrader
          (setHeader okReq "Sec-Websocket-Extensions" "permessage-deflate") []) =
      toCheckError (Upgrade defaultUpgrader okReq []) :=
  c2_compression_negotiation true "permessage-deflate" defaultUpgrader okReq []
    "permessage-deflate" rfl

/-- Each value of a header entry appears in its rendering, sanitized
and terminated by CRLF. -/
theorem renderVals_contains (k v : String) (vs : List String) (hv : v ∈ vs) :
    ∃ l r, renderVals k vs =
      l ++ (strBytes k ++ strBytes ": " ++ sanitize (strBytes v) ++ [13, 10]) ++ r := by
  induction vs with
  | nil => cases hv
  | cons w ws ih =>
    rcases List.mem_cons.mp hv with heq | hmem
    · refine ⟨[], renderVals k ws, ?_⟩
      simp [renderVals, heq, List.append_assoc]
    · obtain ⟨l, r, hlr⟩ := ih hmem
      refine ⟨strBytes k ++ strBytes ": " ++ sanitize (strBytes w) ++ [13, 10] ++ l, r, ?_⟩
      simp [renderVals, hlr, List.append_assoc]

/-- Every value of every non-`Sec-Websocket-Protocol` entry appears in
the rendered application headers, sanitized. -/
theorem renderAppHeaders_contains (hs : List (String × List String))
    (k : String) (vs : List String) (v : String)
    (hmem : (k, vs) ∈ hs) (hk : k ≠ "Sec-Websocket-Protocol") (hv : v ∈ vs) :
    ∃ l r, renderAppHeaders hs =
      l ++ (strBytes k ++ strBytes ": " ++ sanitize (strBytes v) ++ [13, 10]) ++ r := by
  induction hs with
  | nil => cases hmem
  | cons entry rest ih =>
    obtain ⟨ek, evs⟩ := entry
    rcases List.mem_cons.mp hmem with heq | hmem2
    · obtain ⟨hek, hevs⟩ := Prod.mk.injEq .. ▸ heq
      subst hek
      subst hevs
      have hkb : (k == "Sec-Websocket-Protocol") = false := beq_eq_false_iff_ne.mpr hk
      obtain ⟨l, r, hlr⟩ := renderVals_contains k v vs hv
      refine ⟨l, r ++ renderAppHeaders rest, ?_⟩
      simp [renderAppHeaders, hkb, hlr, List.append_assoc]
    · obtain ⟨l, r, hlr⟩ := ih hmem2
      cases hek : ek == "Sec-Websocket-Protocol"
      · refine ⟨renderVals ek evs ++ l, r, ?_⟩
        simp [renderAppHeaders, hek, hlr, List.append_assoc]
      · refine ⟨l, r, ?_⟩
        simp [renderAppHeaders, hek, hlr]

/-- Claim C10: in the emitted 101 response, every application-supplied
header value appears with each byte at most 31 replaced by a space
(and the sanitized segment contains no byte at most 31), while
application-supplied `Sec-Websocket-Protocol` entries are dropped and,
when a subprotocol was negotiated, the response carries the negotiated
`Sec-WebSocket-Protocol` line instead. -/
theorem c10_response_sanitization (accept sub : String) (compress : Bool)
    (hs : List (String × List String)) (k : String) (vs : List String) (v : String)
    (hmem : (k, vs) ∈ hs) (hk : k ≠ "Sec-Websocket-Protocol") (hv : v ∈ vs) :
    (∃ l r, buildResponse accept sub compress hs =
      l ++ (strBytes k ++ strBytes ": " ++ sanitize (strBytes v) ++ [13, 10]) ++ r) ∧
    (∀ b ∈ sanitize (strBytes v), 31 < b) ∧
    (∀ vs2 rest, renderAppHeaders (("Sec-Websocket-Protocol", vs2) :: rest) =
      renderAppHeaders rest) ∧
    (sub ≠ "" → ∃ r2, buildResponse accept sub compress hs =
      strBytes "HTTP/1.1 101 Switching Protocols\r\nUpgrade: websocket\r\nConnection: Upgrade\r\nSec-WebSocket-Accept: " ++
      strBytes accept ++ [13, 10] ++
      (strBytes "Sec-WebSocket-Protocol: " ++ strBytes sub ++ [13, 10]) ++ r2) := by
  refine ⟨?_, ?_, ?_, ?_⟩
  · obtain ⟨l, r, hlr⟩ := renderAppHeaders_contains hs k vs v hmem hk hv
    refine ⟨strBytes "HTTP/1.1 101 Switching Protocols\r\nUpgrade: websocket\r\nConnection: Upgrade\r\nSec-WebSocket-Accept: " ++
      strBytes accept ++ [13, 10] ++
      (if sub == "" then [] else strBytes "Sec-WebSocket-Protocol: " ++ strBytes sub ++ [13, 10]) ++
      (if compress then
        strBytes "Sec-WebSocket-Extensions: permessage-deflate; server_no_context_takeover; client_no_context_takeover\r\n"
      else []) ++ l, r ++ [13, 10], ?_⟩
    simp [buildResponse, hlr, List.append_assoc]
  · intro b hb
    simp only [sanitize, List.mem_map] at hb
    obtain ⟨x, -, hxe⟩ := hb
    by_cases hx : x ≤ 31 <;> simp [hx] at hxe <;> omega
  · intro vs2 rest
    simp [renderAppHeaders]
  · intro hsub
    have hb : (sub == "") = false := beq_eq_false_iff_ne.mpr hsub
    refine ⟨(if compress then
        strBytes "Sec-WebSocket-Extensions: permessage-deflate; server_no_context_takeover; client_no_context_takeover\r\n"
      else []) ++ renderAppHeaders hs ++ [13, 10], ?_⟩
    simp [buildResponse, hb, List.append_assoc]

/-- Claim C10, witness: with a control character inside an
application header value and an application `Sec-Websocket-Protocol`
entry, the sanitized segment appears in the response. -/
theorem c10_witness :
    ∃ l r, buildResponse "ACCEPT" "chat" false c10Hs =
      l ++ (strBytes "X-Accel" ++ strBytes ": " ++ sanitize (strBytes "a\nb") ++ [13, 10]) ++ r :=
  (c10_response_sanitization "ACCEPT" "chat" false c10Hs "X-Accel" ["a\nb"] "a\nb"
    (by decide) (by decide) (by decide)).1

end HzWS
